import Mathlib

/-!
Verification development for the DLL lesson-plan generator (`src/app.py`).

The generator's logic is embedded shallowly: strings are Lean `String`s
(manipulated as `List Char` where the source does string surgery), the
parsed AI response is an explicit `Json` value, Python's dynamic-typing
failures are an explicit error type, and the Streamlit generation action
is a pure function from the request and the (abstract) AI response text
to an effect trace plus an outcome.
-/

/-! ## String utilities (List Char level)

`src/app.py:108` does `response.text.replace("```json", "").replace("```", "")`.
Python's `str.replace` deletes every non-overlapping occurrence of the
pattern, scanning left to right.  `delAux` embeds that scan: at skip
counter 0 it tests for the pattern at the current position; on a match it
consumes the whole pattern (one char now, `pat.length - 1` via the skip
counter), otherwise it keeps the char. -/

def delAux (pat : List Char) : List Char → Nat → List Char
  | [], _ => []
  | _ :: rest, n + 1 => delAux pat rest n
  | c :: rest, 0 =>
    if pat.isPrefixOf (c :: rest) then delAux pat rest (pat.length - 1)
    else c :: delAux pat rest 0

/-- Python `s.replace(pat, "")` for a nonempty `pat`. -/
def pyDel (pat s : List Char) : List Char := delAux pat s 0

/-- Does `pat` occur as a contiguous block inside `s`?  (Python `pat in s`.) -/
def occursIn (pat : List Char) : List Char → Bool
  | [] => pat.isEmpty
  | c :: rest => pat.isPrefixOf (c :: rest) || occursIn pat rest

/-- The three-backtick Markdown fence marker. -/
def tick3 : List Char := "```".data

/-- The "json"-labeled opening fence marker. -/
def fenceJson : List Char := "```json".data

/-- `src/app.py:108`: `json_str = response.text.replace("```json", "").replace("```", "")`. -/
def cleanFencesL (s : List Char) : List Char := pyDel tick3 (pyDel fenceJson s)

/-- The response normalization of `src/app.py:108`, at `String` level. -/
def cleanResponse (s : String) : String := String.mk (cleanFencesL s.data)

/-- Python `pat in s` on strings (substring containment). -/
def substrOfS (pat s : String) : Bool := occursIn pat.data s.data

/-! ### Spec-side normalization (for comparison only)

Modelled from the spec (§4.3 normalization algorithm), not from the
source: (1) if a "json"-labeled fence occurs, extract strictly between
that opening fence and the next fence; (2) else if any fence marker
occurs, extract between the first pair of fence markers; (3) else use the
text unmodified. -/

/-- Suffix of `s` strictly after the first occurrence of `pat`. -/
def dropThroughFirst (pat : List Char) : List Char → List Char
  | [] => []
  | c :: rest =>
    if pat.isPrefixOf (c :: rest) then (c :: rest).drop pat.length
    else dropThroughFirst pat rest

/-- Prefix of `s` strictly before the first occurrence of `pat`. -/
def takeUntil (pat : List Char) : List Char → List Char
  | [] => []
  | c :: rest =>
    if pat.isPrefixOf (c :: rest) then []
    else c :: takeUntil pat rest

/-- Modelled from the spec: §4.3's three-case, first-match-wins
normalization policy (the source's words, used only to compare the code's
normalization against the claimed policy). -/
def specNormalize (s : List Char) : List Char :=
  if occursIn fenceJson s then takeUntil tick3 (dropThroughFirst fenceJson s)
  else if occursIn tick3 s then takeUntil tick3 (dropThroughFirst tick3 s)
  else s

example : cleanFencesL ("a```json{}```b".data) = "a{}b".data := by decide

example : specNormalize ("a```json{}```b".data) = "{}".data := by decide

example : cleanFencesL ("```json".data ++ "\x7b\"k\": 1\x7d".data ++ "```".data) = "\x7b\"k\": 1\x7d".data := by
  decide

/-! ## Lemmas about `isPrefixOf`, `occursIn` and `pyDel` -/

theorem isPrefixOf_length {p l : List Char} (h : p.isPrefixOf l = true) :
    p.length ≤ l.length := by
  induction p generalizing l with
  | nil => simp
  | cons a as ih =>
    cases l with
    | nil => simp [List.isPrefixOf] at h
    | cons b bs =>
      simp only [List.isPrefixOf, Bool.and_eq_true] at h
      simpa using ih h.2

theorem isPrefixOf_trans {p q r : List Char} (h1 : p.isPrefixOf q = true)
    (h2 : q.isPrefixOf r = true) : p.isPrefixOf r = true := by
  induction p generalizing q r with
  | nil => simp
  | cons a as ih =>
    cases q with
    | nil => simp [List.isPrefixOf] at h1
    | cons b bs =>
      cases r with
      | nil => simp [List.isPrefixOf] at h2
      | cons c cs =>
        simp only [List.isPrefixOf, Bool.and_eq_true, beq_iff_eq] at h1 h2 ⊢
        exact ⟨h1.1.trans h2.1, ih h1.2 h2.2⟩

theorem isPrefixOf_append_self (p t : List Char) : p.isPrefixOf (p ++ t) = true := by
  induction p with
  | nil => simp
  | cons a as ih => simp [List.isPrefixOf, ih]

theorem isPrefixOf_of_append {p xs ys : List Char} (h : p.isPrefixOf (xs ++ ys) = true)
    (hlen : p.length ≤ xs.length) : p.isPrefixOf xs = true := by
  induction p generalizing xs with
  | nil => simp
  | cons a as ih =>
    cases xs with
    | nil => simp at hlen
    | cons x xs' =>
      simp only [List.cons_append, List.isPrefixOf, Bool.and_eq_true] at h ⊢
      exact ⟨h.1, ih h.2 (by simpa using hlen)⟩

theorem occursIn_of_isPrefixOf_occurs {p q : List Char} (hpq : p.isPrefixOf q = true) :
    ∀ {s : List Char}, occursIn q s = true → occursIn p s = true := by
  intro s
  induction s with
  | nil =>
    simp only [occursIn, List.isEmpty_iff]
    intro hq
    subst hq
    cases p with
    | nil => rfl
    | cons a as => simp [List.isPrefixOf] at hpq
  | cons c rest ih =>
    simp only [occursIn, Bool.or_eq_true]
    rintro (h | h)
    · exact Or.inl (isPrefixOf_trans hpq h)
    · exact Or.inr (ih h)

theorem pyDel_of_not_occurs {pat s : List Char} (h : occursIn pat s = false) :
    delAux pat s 0 = s := by
  induction s with
  | nil => rfl
  | cons c rest ih =>
    simp only [occursIn, Bool.or_eq_false_iff] at h
    simp [delAux, h.1, ih h.2]

theorem delAux_skip (pat : List Char) : ∀ (l rest : List Char),
    delAux pat (l ++ rest) l.length = delAux pat rest 0 := by
  intro l
  induction l with
  | nil => intro rest; rfl
  | cons x l' ih => intro rest; simp [delAux, ih rest]

theorem delAux_append_self {pat : List Char} (hne : pat ≠ []) (rest : List Char) :
    delAux pat (pat ++ rest) 0 = delAux pat rest 0 := by
  cases pat with
  | nil => exact absurd rfl hne
  | cons c p =>
    have hpf := isPrefixOf_append_self (c :: p) rest
    simp only [List.cons_append] at hpf ⊢
    rw [delAux, if_pos hpf]
    simpa using delAux_skip (c :: p) p rest

theorem tick3_isPrefixOf_fenceJson : tick3.isPrefixOf fenceJson = true := by decide

theorem not_occurs_fenceJson_append_tick3 {s : List Char}
    (h : occursIn tick3 s = false) : occursIn fenceJson (s ++ tick3) = false := by
  induction s with
  | nil => decide
  | cons c rest ih =>
    simp only [occursIn, Bool.or_eq_false_iff] at h
    simp only [List.cons_append, occursIn, Bool.or_eq_false_iff]
    refine ⟨?_, ih h.2⟩
    by_contra hp
    have hp' : fenceJson.isPrefixOf (c :: (rest ++ tick3)) = true := by
      cases hfj : fenceJson.isPrefixOf (c :: (rest ++ tick3)) with
      | false => exact absurd hfj hp
      | true => rfl
    have ht : tick3.isPrefixOf (c :: (rest ++ tick3)) = true :=
      isPrefixOf_trans tick3_isPrefixOf_fenceJson hp'
    have hlen : fenceJson.length ≤ (c :: (rest ++ tick3)).length := isPrefixOf_length hp'
    have hlen3 : tick3.length ≤ (c :: rest).length := by
      simp only [List.length_cons, List.length_append] at hlen ⊢
      have : fenceJson.length = 7 := by decide
      have h3 : tick3.length = 3 := by decide
      omega
    have : tick3.isPrefixOf (c :: rest) = true := by
      have := @isPrefixOf_of_append tick3 (c :: rest) tick3 (by simpa using ht) hlen3
      exact this
    simp [this] at h

theorem tick3_eq : tick3 = [Char.ofNat 96, Char.ofNat 96, Char.ofNat 96] := by decide

theorem delAux_tick3_append {s : List Char} (h : occursIn tick3 s = false) :
    delAux tick3 (s ++ tick3) 0 = s := by
  induction s with
  | nil => decide
  | cons c rest ih =>
    simp only [occursIn, Bool.or_eq_false_iff] at h
    cases hc : tick3.isPrefixOf (c :: rest ++ tick3) with
    | false =>
      simp only [List.cons_append] at hc ⊢
      rw [delAux, if_neg (by simp [hc])]
      rw [ih h.2]
    | true =>
      -- the fence matches only by borrowing from the appended `tick3`,
      -- so `c :: rest` is one or two backticks
      have hshort : (c :: rest).length ≤ 2 := by
        by_contra hlong
        have h3 : tick3.length ≤ (c :: rest).length := by
          have : tick3.length = 3 := by decide
          omega
        have := @isPrefixOf_of_append tick3 (c :: rest) tick3 hc h3
        simp [this] at h
      cases rest with
      | nil =>
        have hct : c = Char.ofNat 96 := by
          rw [tick3_eq] at hc
          simp only [List.cons_append, List.nil_append, List.isPrefixOf,
            Bool.and_eq_true, beq_iff_eq] at hc
          exact hc.1.symm
        subst hct
        decide
      | cons c2 rest2 =>
        cases rest2 with
        | nil =>
          have hct : c = Char.ofNat 96 ∧ c2 = Char.ofNat 96 := by
            rw [tick3_eq] at hc
            simp only [List.cons_append, List.nil_append, List.isPrefixOf,
              Bool.and_eq_true, beq_iff_eq] at hc
            exact ⟨hc.1.symm, hc.2.1.symm⟩
          obtain ⟨h1, h2⟩ := hct
          subst h1; subst h2
          decide
        | cons c3 rest3 => simp at hshort

theorem cleanFencesL_no_fence {s : List Char} (h : occursIn tick3 s = false) :
    cleanFencesL s = s := by
  have hfj : occursIn fenceJson s = false := by
    cases hq : occursIn fenceJson s with
    | false => rfl
    | true =>
      have := occursIn_of_isPrefixOf_occurs tick3_isPrefixOf_fenceJson hq
      simp [this] at h
  unfold cleanFencesL pyDel
  rw [pyDel_of_not_occurs hfj, pyDel_of_not_occurs h]

theorem cleanFencesL_json_fenced {s : List Char} (h : occursIn tick3 s = false) :
    cleanFencesL (fenceJson ++ s ++ tick3) = s := by
  unfold cleanFencesL pyDel
  rw [List.append_assoc, delAux_append_self (by decide),
    pyDel_of_not_occurs (not_occurs_fenceJson_append_tick3 h)]
  exact delAux_tick3_append h

theorem cleanFencesL_plain_fenced {s : List Char} (h : occursIn tick3 s = false)
    (hj : occursIn fenceJson (tick3 ++ s ++ tick3) = false) :
    cleanFencesL (tick3 ++ s ++ tick3) = s := by
  unfold cleanFencesL pyDel
  rw [pyDel_of_not_occurs hj, List.append_assoc, delAux_append_self (by decide)]
  exact delAux_tick3_append h

/-! ## The parsed AI response (`data = json.loads(json_str)`, `src/app.py:109`)

`json.loads` itself is Python's standard library; the pipeline is
parameterized over a `parse : String → Option Json` oracle, with `none`
modelling a raised `JSONDecodeError`.  A successful parse is an explicit
`Json` value. -/

inductive Json where
  | null : Json
  | bool (b : Bool) : Json
  | num (n : Int) : Json
  | str (s : String) : Json
  | arr (xs : List Json) : Json
  | obj (kvs : List (String × Json)) : Json

/-- Errors Python raises inside the row loop (`src/app.py:149-155`),
caught by the blanket `except Exception` at `src/app.py:172`. -/
inductive PyErr where
  | typeErr : PyErr
  | keyErr : PyErr
  | attrErr : PyErr
  deriving DecidableEq

/-- Python dict lookup on the parsed object. -/
def jlookup (kvs : List (String × Json)) (k : String) : Option Json :=
  (kvs.find? (fun p => p.1 == k)).map (fun p => p.2)

/-- Python `key in data` (`src/app.py:152`): dict key membership, list
element membership, substring test on a str, `TypeError` otherwise. -/
def pyContains (data : Json) (key : String) : Except PyErr Bool :=
  match data with
  | .obj kvs => .ok (kvs.any (fun p => p.1 == key))
  | .arr xs => .ok (xs.any (fun v => match v with | .str s => s == key | _ => false))
  | .str s => .ok (substrOfS key s)
  | _ => .error .typeErr

/-- Python `data[key]` (`src/app.py:155`): dict lookup; list/str refuse a
string index with `TypeError`, other values are not subscriptable. -/
def pyIndex (data : Json) (key : String) : Except PyErr Json :=
  match data with
  | .obj kvs =>
    match jlookup kvs key with
    | some v => .ok v
    | none => .error .keyErr
  | _ => .error .typeErr

/-- Python `data[key].get(day, "")` (`src/app.py:155`): `.get` exists only
on dicts; any other value raises `AttributeError`. -/
def pyGetDay (v : Json) (day : String) : Except PyErr Json :=
  match v with
  | .obj kvs => .ok ((jlookup kvs day).getD (.str ""))
  | _ => .error .attrErr

/-- `row_cells[i+1].text = <value>` (`src/app.py:155`): python-docx's text
setter iterates the value as a string, so a non-`str` JSON scalar raises. -/
def pyCellText (v : Json) : Except PyErr String :=
  match v with
  | .str s => .ok s
  | _ => .error .typeErr

/-- `src/app.py:36`: `days = ["Monday", "Tuesday", "Wednesday", "Thursday", "Friday"]`. -/
def days : List String := ["Monday", "Tuesday", "Wednesday", "Thursday", "Friday"]

/-- `src/app.py:136-147`: the fixed `(key, display label)` row mapping. -/
def row_labels : List (String × String) :=
  [("review", "Reviewing previous lesson"),
   ("purpose", "Establishing purpose"),
   ("examples", "Presenting examples"),
   ("discuss_1", "Discussing new concepts #1"),
   ("discuss_2", "Discussing new concepts #2"),
   ("mastery", "Developing Mastery"),
   ("application", "Practical application"),
   ("generalization", "Making generalizations"),
   ("evaluation", "Evaluating learning"),
   ("remediation", "Additional activities")]

/-- `src/app.py:130-133`: the header row of the 6-column table. -/
def headerRow : List String := "Parts of the Lesson" :: days

/-- `src/app.py:149-155`: one data row.  The label cell is set first; if
`key in data` the five day cells are filled from `data[key].get(day, "")`,
otherwise they keep python-docx's empty default. -/
def buildRow (data : Json) (key label : String) : Except PyErr (List String) :=
  pyContains data key >>= fun c =>
    if c then
      pyIndex data key >>= fun v =>
        (days.mapM (fun day => pyGetDay v day >>= pyCellText)).map
          (fun cells => label :: cells)
    else
      .ok (label :: days.map (fun _ => ""))

/-- `src/app.py:126-155`: the whole table — header row plus one data row
per `row_labels` entry, in order. -/
def buildTable (data : Json) : Except PyErr (List (List String)) :=
  (row_labels.mapM (fun kl => buildRow data kl.1 kl.2)).map
    (fun rows => headerRow :: rows)

/-- The generated word document, as observable content: the level-0
heading, the paragraphs in order, and the table cells. -/
structure GeneratedDoc where
  heading : String
  paragraphs : List String
  table : List (List String)
  deriving DecidableEq

/-- `src/app.py:112-155`: document assembly.  The heading combines subject
and grade level; the paragraphs are the week label, content standard and
performance standard (the learning competency is used only in the prompt,
not in the document); then the table is filled in. -/
def buildDoc (subject grade_level quarter content_std perf_std : String)
    (data : Json) : Except PyErr GeneratedDoc :=
  (buildTable data).map (fun table =>
    { heading := "Daily Lesson Log - " ++ subject ++ " " ++ grade_level
      paragraphs := ["Week: " ++ quarter,
                     "Content Standard: " ++ content_std,
                     "Performance Standard: " ++ perf_std]
      table := table })

example :
    buildTable (.obj [("review", .obj [("Monday", .str "Recall prior lesson")])]) =
      .ok (headerRow ::
        ["Reviewing previous lesson", "Recall prior lesson", "", "", "", ""] ::
        (row_labels.drop 1).map (fun kl => kl.2 :: ["", "", "", "", ""])) := by
  rfl

example : buildTable (.obj [("review", .str "oops")]) = .error .attrErr := by rfl

example : buildTable (.arr []) = .ok (headerRow :: row_labels.map (fun kl => kl.2 :: ["", "", "", "", ""])) := by rfl

example : buildTable (.num 3) = .error .typeErr := by rfl

/-! ## The generation action (`src/app.py:44-173`) -/

/-- The form inputs of one submission (`src/app.py:18-41`).  The uploaded
file is `none` when absent; its contents are opaque here. -/
structure Request where
  api_key : String
  grade_level : String
  subject : String
  quarter : String
  content_std : String
  perf_std : String
  competency : String
  uploaded_file : Option String
  objectives : List (String × String)

/-- External effects of the generation action, in order of occurrence:
`genai.configure` (`src/app.py:53`), model construction (`src/app.py:66`),
and the single `generate_content` call (`src/app.py:101`). -/
inductive Effect where
  | configureAI : Effect
  | initModel : Effect
  | externalCall : Effect
  deriving DecidableEq

/-- An error inside the `try` block of `src/app.py:51-173`: either
`json.loads` raised, or the row loop raised. -/
inductive PipeErr where
  | parseFail : PipeErr
  | pyErr (e : PyErr) : PipeErr
  deriving DecidableEq

/-- A user-facing `st.error` message. -/
inductive ErrMsg where
  | missingKey : ErrMsg
  | missingUpload : ErrMsg
  | caught (e : PipeErr) : ErrMsg
  deriving DecidableEq

/-- What one click of "Generate Lesson Plan" yields: an error message, or
a success banner with a download of the document under a file name and
MIME type (`src/app.py:162-170`). -/
inductive Outcome where
  | errorMsg (m : ErrMsg) : Outcome
  | success (doc : GeneratedDoc) (file_name : String) (mime : String) : Outcome
  deriving DecidableEq

/-- `src/app.py:169`: the MIME type passed to `st.download_button`. -/
def docxMime : String :=
  "application/vnd.openxmlformats-officedocument.wordprocessingml.document"

/-- `src/app.py:66`: the model identifier is the literal
`'gemini-1.5-flash'`; no enumeration of available models happens. -/
def modelName : String := "gemini-1.5-flash"

/-- `src/app.py:44-173`: the generation action.  `parse` abstracts
`json.loads` (with `none` for a raised decode error) and `respText`
abstracts `response.text` from the provider.  Returns the trace of
external effects and the outcome. -/
def runGenerate (parse : String → Option Json) (req : Request)
    (respText : String) : List Effect × Outcome :=
  if req.api_key = "" then ([], .errorMsg .missingKey)
  else if req.uploaded_file = none then ([], .errorMsg .missingUpload)
  else
    let effects := [Effect.configureAI, Effect.initModel, Effect.externalCall]
    match parse (cleanResponse respText) with
    | none => (effects, .errorMsg (.caught .parseFail))
    | some data =>
      match buildDoc req.subject req.grade_level req.quarter req.content_std
          req.perf_std data with
      | .error e => (effects, .errorMsg (.caught (.pyErr e)))
      | .ok doc => (effects, .success doc "Lesson_Plan.docx" docxMime)

/-- The document of an outcome, when one was produced. -/
def outcomeDoc : Outcome → Option GeneratedDoc
  | .success doc _ _ => some doc
  | .errorMsg _ => none

/-- The downloadable file name of an outcome, when one was produced. -/
def outcomeFile : Outcome → Option String
  | .success _ f _ => some f
  | .errorMsg _ => none

/-- The MIME type of an outcome's download, when one was produced. -/
def outcomeMime : Outcome → Option String
  | .success _ _ m => some m
  | .errorMsg _ => none

/-- Modelled from the spec (§4.1): the claimed Model Selector — preferred
identifiers tried in order by substring match against the enumerated
available models, first available model as fallback, and the hard-coded
default when enumeration fails (`enumerated = none`).  Used only to
compare the source's hard-coded choice against the claimed algorithm. -/
def specSelectModel (preferred : List String) (defaultId : String)
    (enumerated : Option (List String)) : String :=
  match enumerated with
  | none => defaultId
  | some avail =>
    match preferred.find? (fun p => avail.any (fun a => substrOfS p a)) with
    | some p => p
    | none => avail.headD defaultId

/-! ## Shape predicates on the parsed response

`dayOk`/`goodPartVal`/`rowOk`/`wellShaped` describe the responses whose
Monday–Friday entries, where present, are strings (the `LessonPlanMatrix`
shape of the spec's §3); `cellStr`/`getCell` name the cell the code ends
up writing. -/

/-- The weekday entry, if present, is a string. -/
def dayOk (kvs : List (String × Json)) (d : String) : Bool :=
  match jlookup kvs d with
  | some (.str _) => true
  | none => true
  | some _ => false

/-- The string the code writes for weekday `d` of a present part object:
the entry when it is a string, the `.get` default `""` when absent. -/
def cellStr (kvs : List (String × Json)) (d : String) : String :=
  match jlookup kvs d with
  | some (.str s) => s
  | _ => ""

/-- A part value that the row loop survives: an object whose present
weekday entries are strings. -/
def goodPartVal : Json → Bool
  | .obj kvs => days.all (fun d => dayOk kvs d)
  | _ => false

/-- The part key is absent, or present with a survivable value. -/
def rowOk (kvs : List (String × Json)) (k : String) : Bool :=
  match jlookup kvs k with
  | none => true
  | some v => goodPartVal v

/-- Every fixed part key is absent or survivable. -/
def wellShaped (kvs : List (String × Json)) : Bool :=
  row_labels.all (fun kl => rowOk kvs kl.1)

/-- The cell value at (part `k`, weekday `d`): the parsed string when part
and weekday are present, `""` otherwise. -/
def getCell (kvs : List (String × Json)) (k d : String) : String :=
  match jlookup kvs k with
  | some (.obj sub) => cellStr sub d
  | _ => ""

/-! ## Lemmas about the row loop -/

@[simp] theorem exc_bind_ok {ε α β : Type} (a : α) (f : α → Except ε β) :
    (Except.ok a >>= f) = f a := rfl

@[simp] theorem exc_bind_error {ε α β : Type} (e : ε) (f : α → Except ε β) :
    ((Except.error e : Except ε α) >>= f) = Except.error e := rfl

@[simp] theorem exc_map_ok {ε α β : Type} (a : α) (f : α → β) :
    (Except.ok a : Except ε α).map f = Except.ok (f a) := rfl

@[simp] theorem exc_map_error {ε α β : Type} (e : ε) (f : α → β) :
    (Except.error e : Except ε α).map f = (Except.error e : Except ε β) := rfl

theorem mapM_ok_of {α β ε : Type} (l : List α) (f : α → Except ε β) (g : α → β)
    (h : ∀ a ∈ l, f a = .ok (g a)) : l.mapM f = .ok (l.map g) := by
  induction l with
  | nil => rfl
  | cons x xs ih =>
    rw [List.mapM_cons, h x (by simp), ih (fun a ha => h a (by simp [ha]))]
    rfl

theorem mapM_congr {α β ε : Type} {l : List α} {f f' : α → Except ε β}
    (h : ∀ a ∈ l, f a = f' a) : l.mapM f = l.mapM f' := by
  induction l with
  | nil => rfl
  | cons x xs ih =>
    rw [List.mapM_cons, List.mapM_cons, h x (by simp),
      ih (fun a ha => h a (by simp [ha]))]

theorem mapM_error_of_mem {α β ε : Type} {l : List α} {f : α → Except ε β} {a : α}
    {e : ε} (ha : a ∈ l) (hf : f a = .error e) : ∃ e', l.mapM f = .error e' := by
  induction l with
  | nil => cases ha
  | cons x xs ih =>
    cases hx : f x with
    | error ex => exact ⟨ex, by rw [List.mapM_cons, hx]; rfl⟩
    | ok bx =>
      rcases List.mem_cons.mp ha with rfl | hmem
      · rw [hx] at hf; cases hf
      · obtain ⟨e', he'⟩ := ih hmem
        refine ⟨e', ?_⟩
        rw [List.mapM_cons, hx, exc_bind_ok, he']
        rfl

theorem dayCell_ok {kvs : List (String × Json)} {d : String}
    (hd : dayOk kvs d = true) :
    (pyGetDay (.obj kvs) d >>= pyCellText) = .ok (cellStr kvs d) := by
  unfold pyGetDay
  cases h : jlookup kvs d with
  | none => simp [h, cellStr, pyCellText]
  | some v =>
    cases v with
    | str s => simp [h, cellStr, pyCellText]
    | null => simp [dayOk, h] at hd
    | bool b => simp [dayOk, h] at hd
    | num n => simp [dayOk, h] at hd
    | arr xs => simp [dayOk, h] at hd
    | obj o => simp [dayOk, h] at hd

theorem pyContains_obj (kvs : List (String × Json)) (k : String) :
    pyContains (.obj kvs) k = .ok ((jlookup kvs k).isSome) := by
  unfold pyContains jlookup
  induction kvs with
  | nil => rfl
  | cons p rest ih =>
    cases hp : p.1 == k with
    | false => simpa [List.any_cons, List.find?, hp] using ih
    | true => simp [List.any_cons, List.find?, hp]

theorem buildRow_obj (kvs : List (String × Json)) (k lbl : String) :
    buildRow (.obj kvs) k lbl =
      match jlookup kvs k with
      | none => .ok (lbl :: days.map (fun _ => ""))
      | some v =>
        (days.mapM (fun day => pyGetDay v day >>= pyCellText)).map
          (fun cells => lbl :: cells) := by
  unfold buildRow
  rw [pyContains_obj]
  cases h : jlookup kvs k with
  | none => simp [h]
  | some v => simp [h, pyIndex]

theorem buildRow_ok {kvs : List (String × Json)} {k : String} (lbl : String)
    (hk : rowOk kvs k = true) :
    buildRow (.obj kvs) k lbl = .ok (lbl :: days.map (getCell kvs k)) := by
  rw [buildRow_obj]
  cases h : jlookup kvs k with
  | none =>
    dsimp only
    have : days.map (fun _ => "") = days.map (getCell kvs k) := by
      simp [days, getCell, h]
    rw [this]
  | some v =>
    simp only [rowOk, h] at hk
    dsimp only
    cases v with
    | obj sub =>
      have hall : ∀ d ∈ days, dayOk sub d = true := by
        simpa only [goodPartVal, List.all_eq_true] using hk
      rw [mapM_ok_of days _ (fun d => cellStr sub d) (fun d hd => dayCell_ok (hall d hd))]
      have : days.map (fun d => cellStr sub d) = days.map (getCell kvs k) := by
        simp [days, getCell, h]
      rw [exc_map_ok, this]
    | null => simp [goodPartVal] at hk
    | bool b => simp [goodPartVal] at hk
    | num n => simp [goodPartVal] at hk
    | str s => simp [goodPartVal] at hk
    | arr xs => simp [goodPartVal] at hk

theorem buildTable_ok {kvs : List (String × Json)} (hw : wellShaped kvs = true) :
    buildTable (.obj kvs) =
      .ok (headerRow :: row_labels.map (fun kl => kl.2 :: days.map (getCell kvs kl.1))) := by
  unfold buildTable
  rw [wellShaped, List.all_eq_true] at hw
  rw [mapM_ok_of _ _ (fun kl => kl.2 :: days.map (getCell kvs kl.1))
    (fun kl hkl => buildRow_ok kl.2 (hw kl hkl))]
  rfl

/-! ## Claim C1 — response normalization -/

/-- **C1** (corrected).  The code's normalization (`src/app.py:108`)
deletes every occurrence of the marker "```json" and then every "```"
rather than extracting between fences.  Amended claim, as far as the code
supports it: (i) a text with no fence markers is used unmodified; (ii) a
response that is exactly a "json"-labeled fenced block around fence-free
inner content normalizes to exactly that inner content — byte-identical
to the unfenced case by (i); (iii) likewise for a response that is
exactly an unlabeled fenced block, provided no "json"-labeled fence
occurs in it. -/
theorem c1_normalization_pure_fenced (s : List Char)
    (h : occursIn tick3 s = false) :
    cleanFencesL s = s ∧
    cleanFencesL (fenceJson ++ s ++ tick3) = s ∧
    (occursIn fenceJson (tick3 ++ s ++ tick3) = false →
      cleanFencesL (tick3 ++ s ++ tick3) = s) :=
  ⟨cleanFencesL_no_fence h, cleanFencesL_json_fenced h,
   fun hj => cleanFencesL_plain_fenced h hj⟩

/-- **C1** counterexample.  On the response `"a```json{}```b"` the claimed
three-case policy extracts exactly the content strictly between the
"json"-labeled opening fence and the next fence, `"{}"`; the code keeps
the text outside the fences and yields `"a{}b"`.  So normalization does
not follow the claimed extraction policy. -/
theorem c1_counterexample :
    cleanResponse "a```json{}```b" = "a{}b" ∧
    specNormalize ("a```json{}```b".data) = "{}".data ∧
    cleanFencesL ("a```json{}```b".data) ≠ specNormalize ("a```json{}```b".data) :=
  ⟨by decide, by decide, by decide⟩

/-- **C1** witness: the amended statement at the concrete inner content
`{"Monday": "text"}`. -/
theorem c1_witness :
    occursIn tick3 ("\x7b\"Monday\": \"text\"\x7d".data) = false ∧
    (cleanFencesL ("\x7b\"Monday\": \"text\"\x7d".data) = "\x7b\"Monday\": \"text\"\x7d".data ∧
     cleanFencesL (fenceJson ++ "\x7b\"Monday\": \"text\"\x7d".data ++ tick3) =
       "\x7b\"Monday\": \"text\"\x7d".data ∧
     (occursIn fenceJson (tick3 ++ "\x7b\"Monday\": \"text\"\x7d".data ++ tick3) = false →
       cleanFencesL (tick3 ++ "\x7b\"Monday\": \"text\"\x7d".data ++ tick3) =
         "\x7b\"Monday\": \"text\"\x7d".data)) :=
  ⟨by decide, c1_normalization_pure_fenced _ (by decide)⟩

/-! ## Claim C2 — table shape invariant -/

/-- A sample valid submission (concrete `Request`). -/
def reqScience : Request :=
  { api_key := "k", grade_level := "Grade 5", subject := "Science",
    quarter := "Quarter 1 - Week 1", content_std := "CS", perf_std := "PS",
    competency := "LC", uploaded_file := some "module-bytes", objectives := [] }

/-- **C2** (amended).  For every parsed object whose present fixed part
keys map to objects with string weekday entries, the table is exactly the
header row plus the 10 labeled rows of `getCell` values, each of 6 cells;
a missing part key makes all five of its row's day cells the empty
string, and a missing weekday key within a present part makes that cell
the empty string; and the table depends only on the ten fixed keys'
lookups, so keys outside the fixed ten have no effect. -/
theorem c2_table_shape (kvs : List (String × Json)) (hw : wellShaped kvs = true) :
    (buildTable (.obj kvs) =
      .ok (headerRow :: row_labels.map (fun kl => kl.2 :: days.map (getCell kvs kl.1))) ∧
     (row_labels.map (fun kl => kl.2 :: days.map (getCell kvs kl.1))).length = 10 ∧
     (∀ r ∈ headerRow :: row_labels.map (fun kl => kl.2 :: days.map (getCell kvs kl.1)),
        r.length = 6)) ∧
    (∀ kl ∈ row_labels, jlookup kvs kl.1 = none →
      ∀ d ∈ days, getCell kvs kl.1 d = "") ∧
    (∀ kl ∈ row_labels, ∀ sub, jlookup kvs kl.1 = some (.obj sub) →
      ∀ d ∈ days, jlookup sub d = none → getCell kvs kl.1 d = "") ∧
    (∀ kvs₂, (∀ kl ∈ row_labels, jlookup kvs₂ kl.1 = jlookup kvs kl.1) →
      buildTable (.obj kvs₂) = buildTable (.obj kvs)) := by
  refine ⟨⟨buildTable_ok hw, by simp [row_labels], ?_⟩, ?_, ?_, ?_⟩
  · intro r hr
    rcases List.mem_cons.mp hr with rfl | hr
    · decide
    · obtain ⟨kl, _, rfl⟩ := List.mem_map.mp hr
      simp [days]
  · intro kl _ h d _
    simp only [getCell, h]
  · intro kl _ sub h1 d _ h2
    simp only [getCell, h1, cellStr, h2]
  · intro kvs₂ hagree
    unfold buildTable
    have : row_labels.mapM (fun kl => buildRow (.obj kvs₂) kl.1 kl.2) =
        row_labels.mapM (fun kl => buildRow (.obj kvs) kl.1 kl.2) :=
      mapM_congr (fun kl hkl => by
        rw [buildRow_obj, buildRow_obj, hagree kl hkl])
    rw [this]

/-- **C2** counterexample.  The response `{"review": "not a mapping"}`
parses as JSON, yet no 10×6 table is produced at all: the row loop raises
(`.get` on a `str`), the whole generation fails, and the user gets an
error message instead of a document. -/
theorem c2_counterexample :
    buildTable (Json.obj [("review", Json.str "not a mapping")]) =
      .error .attrErr ∧
    (runGenerate (fun _ => some (Json.obj [("review", Json.str "not a mapping")]))
        reqScience "resp").2 = .errorMsg (.caught (.pyErr .attrErr)) :=
  ⟨rfl, rfl⟩

/-- Concrete parsed object with one partial part key and one extra key. -/
def kvsPartial : List (String × Json) :=
  [("review", .obj [("Monday", .str "Recall")]), ("extra_key", .num 7)]

/-- **C2** witness: the amended statement at `kvsPartial` (one partial
part key, one extra key), including the missing-weekday degradation. -/
theorem c2_witness :
    wellShaped kvsPartial = true ∧
    (buildTable (.obj kvsPartial) =
      .ok (headerRow ::
        row_labels.map (fun kl => kl.2 :: days.map (getCell kvsPartial kl.1))) ∧
     (row_labels.map (fun kl => kl.2 :: days.map (getCell kvsPartial kl.1))).length = 10 ∧
     (∀ r ∈ headerRow ::
        row_labels.map (fun kl => kl.2 :: days.map (getCell kvsPartial kl.1)),
        r.length = 6)) ∧
    (∀ kl ∈ row_labels, ∀ sub, jlookup kvsPartial kl.1 = some (.obj sub) →
      ∀ d ∈ days, jlookup sub d = none → getCell kvsPartial kl.1 d = "") :=
  ⟨by decide, (c2_table_shape kvsPartial (by decide)).1,
   (c2_table_shape kvsPartial (by decide)).2.2.1⟩

/-! ## Claim C3 — complete responses fill all 60 cells verbatim -/

/-- All ten fixed part keys present, each an object with all five
weekdays present as strings. -/
def allComplete (kvs : List (String × Json)) : Bool :=
  row_labels.all (fun kl =>
    match jlookup kvs kl.1 with
    | some (.obj sub) =>
      days.all (fun d =>
        match jlookup sub d with
        | some (.str _) => true
        | _ => false)
    | _ => false)

theorem wellShaped_of_allComplete {kvs : List (String × Json)}
    (h : allComplete kvs = true) : wellShaped kvs = true := by
  rw [allComplete, List.all_eq_true] at h
  rw [wellShaped, List.all_eq_true]
  intro kl hkl
  have hc := h kl hkl
  rw [rowOk]
  cases hj : jlookup kvs kl.1 with
  | none => rw [hj] at hc
  | some v =>
    rw [hj] at hc
    cases v with
    | obj sub =>
      dsimp only at hc ⊢
      rw [List.all_eq_true] at hc
      rw [goodPartVal, List.all_eq_true]
      intro d hd
      have hcd := hc d hd
      rw [dayOk]
      cases hjd : jlookup sub d with
      | none => rfl
      | some w =>
        rw [hjd] at hcd
        cases w <;> simp_all
    | null => exact absurd hc (by simp)
    | bool b => exact absurd hc (by simp)
    | num n => exact absurd hc (by simp)
    | str s => exact absurd hc (by simp)
    | arr xs => exact absurd hc (by simp)

/-- **C3** (confirmed).  For a parsed object with all ten part keys, each
mapping all five weekdays to strings, the table is the header row plus
exactly the ten labeled rows whose five day cells are the parsed values,
part keys in the fixed order and weekdays Monday→Friday; `getCell`
returns the parsed string verbatim at each present (part, weekday). -/
theorem c3_complete_table (kvs : List (String × Json))
    (h : allComplete kvs = true) :
    buildTable (.obj kvs) =
      .ok (headerRow :: row_labels.map (fun kl => kl.2 :: days.map (getCell kvs kl.1))) ∧
    (row_labels.map (fun kl => kl.2 :: days.map (getCell kvs kl.1))).length = 10 ∧
    (∀ kl ∈ row_labels, ∀ sub, jlookup kvs kl.1 = some (.obj sub) →
      ∀ d ∈ days, ∀ s, jlookup sub d = some (.str s) → getCell kvs kl.1 d = s) := by
  refine ⟨buildTable_ok (wellShaped_of_allComplete h), by simp [row_labels], ?_⟩
  intro kl _ sub h1 d _ s h2
  simp only [getCell, h1, cellStr, h2]

/-- A complete concrete response: every part key maps all five weekdays. -/
def subFull : List (String × Json) :=
  [("Monday", .str "m"), ("Tuesday", .str "tu"), ("Wednesday", .str "w"),
   ("Thursday", .str "th"), ("Friday", .str "f")]

/-- All ten fixed keys mapped to `subFull`. -/
def kvsFull : List (String × Json) := row_labels.map (fun kl => (kl.1, Json.obj subFull))

/-- **C3** witness: the statement at the concrete complete response `kvsFull`. -/
theorem c3_witness :
    allComplete kvsFull = true ∧
    buildTable (.obj kvsFull) =
      .ok (headerRow :: row_labels.map (fun kl => kl.2 :: days.map (getCell kvsFull kl.1))) :=
  ⟨by decide, (c3_complete_table kvsFull (by decide)).1⟩

/-! ## Claim C5 — missing weekday entries degrade to empty cells -/

/-- The scenario response of the claim: only `review`/`Monday` present. -/
def reviewOnlyKvs : List (String × Json) :=
  [("review", .obj [("Monday", .str "Recall prior lesson")])]

/-- **C5** (confirmed).  For any parsed object of the matrix shape,
every cell is `getCell`: present weekday entries verbatim, missing
weekday entries (and missing parts) the empty string — so omitted days
yield `""` and no other cell is affected.  In particular, the claim's
end-to-end scenario (subject "Science", grade "Grade 5", response
`{"review": {"Monday": "Recall prior lesson"}}`) yields the explicit
table whose first data row is
`["Reviewing previous lesson", "Recall prior lesson", "", "", "", ""]`
and whose other nine data rows are empty in columns 2–6. -/
theorem c5_missing_days (kvs : List (String × Json)) (hw : wellShaped kvs = true) :
    (buildTable (.obj kvs) =
      .ok (headerRow :: row_labels.map (fun kl => kl.2 :: days.map (getCell kvs kl.1))) ∧
     (∀ kl ∈ row_labels, ∀ sub, jlookup kvs kl.1 = some (.obj sub) →
        ∀ d ∈ days, jlookup sub d = none → getCell kvs kl.1 d = "")) ∧
    (outcomeDoc (runGenerate (fun _ => some (.obj reviewOnlyKvs)) reqScience "resp").2).map
        (fun doc => doc.table) =
      some (headerRow ::
        ["Reviewing previous lesson", "Recall prior lesson", "", "", "", ""] ::
        ["Establishing purpose", "", "", "", "", ""] ::
        ["Presenting examples", "", "", "", "", ""] ::
        ["Discussing new concepts #1", "", "", "", "", ""] ::
        ["Discussing new concepts #2", "", "", "", "", ""] ::
        ["Developing Mastery", "", "", "", "", ""] ::
        ["Practical application", "", "", "", "", ""] ::
        ["Making generalizations", "", "", "", "", ""] ::
        ["Evaluating learning", "", "", "", "", ""] ::
        ["Additional activities", "", "", "", "", ""] :: []) := by
  refine ⟨⟨buildTable_ok hw, ?_⟩, rfl⟩
  intro kl _ sub h1 d _ h2
  simp only [getCell, h1, cellStr, h2]

/-- **C5** witness: the statement at the scenario response itself. -/
theorem c5_witness :
    wellShaped reviewOnlyKvs = true ∧
    buildTable (.obj reviewOnlyKvs) =
      .ok (headerRow ::
        row_labels.map (fun kl => kl.2 :: days.map (getCell reviewOnlyKvs kl.1))) :=
  ⟨by decide, ((c5_missing_days reviewOnlyKvs (by decide)).1).1⟩

/-! ## The generation action on valid inputs -/

theorem runGenerate_valid {parse : String → Option Json} {req : Request}
    {resp : String} (hk : req.api_key ≠ "") (hu : req.uploaded_file ≠ none) :
    runGenerate parse req resp =
      ([Effect.configureAI, Effect.initModel, Effect.externalCall],
        match parse (cleanResponse resp) with
        | none => .errorMsg (.caught .parseFail)
        | some data =>
          match buildDoc req.subject req.grade_level req.quarter req.content_std
              req.perf_std data with
          | .error e => .errorMsg (.caught (.pyErr e))
          | .ok doc => .success doc "Lesson_Plan.docx" docxMime) := by
  unfold runGenerate
  rw [if_neg hk, if_neg hu]
  cases parse (cleanResponse resp) with
  | none => rfl
  | some data =>
    dsimp only
    cases buildDoc req.subject req.grade_level req.quarter req.content_std
        req.perf_std data with
    | error e => rfl
    | ok doc => rfl

/-! ## Claim C4 — parse failure aborts generation -/

/-- A parse oracle that always fails (models `json.loads` raising). -/
def parseNone : String → Option Json := fun _ => none

/-- A parse oracle returning the non-object top level `[]`. -/
def parseArrEmpty : String → Option Json := fun _ => some (.arr [])

/-- The ten all-empty data rows. -/
def emptyTableRows : List (List String) :=
  row_labels.map (fun kl => kl.2 :: days.map (fun _ => ""))

/-- The document generated for `reqScience` from a response with no
matching part keys. -/
def docScienceEmpty : GeneratedDoc :=
  { heading := "Daily Lesson Log - Science Grade 5"
    paragraphs := ["Week: Quarter 1 - Week 1", "Content Standard: CS",
                   "Performance Standard: PS"]
    table := headerRow :: emptyTableRows }

/-- **C4** (amended).  For every submission with credentials and upload
present whose normalized response text fails to parse as JSON, the
generation fails with the parse error surfaced as a user-facing message,
and no downloadable document is produced. -/
theorem c4_parse_failure (parse : String → Option Json) (req : Request)
    (resp : String) (hk : req.api_key ≠ "") (hu : req.uploaded_file ≠ none)
    (hp : parse (cleanResponse resp) = none) :
    (runGenerate parse req resp).2 = .errorMsg (.caught .parseFail) ∧
    ∀ d f m, (runGenerate parse req resp).2 ≠ .success d f m := by
  constructor
  · rw [runGenerate_valid hk hu, hp]
  · intro d f m hcontra
    rw [runGenerate_valid hk hu, hp] at hcontra
    exact absurd hcontra (by simp)

/-- **C4** counterexample to the non-object extension.  The normalized
text `[]` parses as JSON with a non-object top level, yet generation does
NOT fail: it succeeds and offers a document whose table is entirely
empty. -/
theorem c4_counterexample :
    parseArrEmpty (cleanResponse "[]") = some (Json.arr []) ∧
    (∀ kvs, Json.arr [] ≠ Json.obj kvs) ∧
    (runGenerate parseArrEmpty reqScience "[]").2 =
      .success docScienceEmpty "Lesson_Plan.docx" docxMime :=
  ⟨rfl, fun _ h => Json.noConfusion h, rfl⟩

/-- **C4** witness: the amended statement for a concrete failing parse. -/
theorem c4_witness :
    reqScience.api_key ≠ "" ∧ parseNone (cleanResponse "not json") = none ∧
    ((runGenerate parseNone reqScience "not json").2 =
        .errorMsg (.caught .parseFail) ∧
     ∀ d f m, (runGenerate parseNone reqScience "not json").2 ≠ .success d f m) :=
  ⟨by decide, rfl,
   c4_parse_failure parseNone reqScience "not json" (by decide) (by decide) rfl⟩

/-! ## Claim C9 — missing inputs stop everything up front -/

/-- **C9** (confirmed).  When the API key is empty or no file is
uploaded, the click produces no external effects at all (no model
configuration, no request), the outcome is the corresponding
missing-input error message, it does not depend on the parse oracle or
the response, and no document is offered. -/
theorem c9_missing_inputs (parse parse' : String → Option Json) (req : Request)
    (resp resp' : String) (h : req.api_key = "" ∨ req.uploaded_file = none) :
    (runGenerate parse req resp).1 = [] ∧
    runGenerate parse req resp = runGenerate parse' req resp' ∧
    ((runGenerate parse req resp).2 = .errorMsg .missingKey ∨
     (runGenerate parse req resp).2 = .errorMsg .missingUpload) ∧
    (∀ d f m, (runGenerate parse req resp).2 ≠ .success d f m) := by
  by_cases hk : req.api_key = ""
  · simp [runGenerate, hk]
  · rcases h with h | h
    · exact absurd h hk
    · simp [runGenerate, hk, h]

/-- A submission with the API key left empty. -/
def reqNoKey : Request := { reqScience with api_key := "" }

/-- **C9** witness: the statement at a concrete key-less submission. -/
theorem c9_witness :
    (reqNoKey.api_key = "" ∨ reqNoKey.uploaded_file = none) ∧
    ((runGenerate parseNone reqNoKey "r").1 = [] ∧
     runGenerate parseNone reqNoKey "r" = runGenerate parseArrEmpty reqNoKey "other" ∧
     ((runGenerate parseNone reqNoKey "r").2 = .errorMsg .missingKey ∨
      (runGenerate parseNone reqNoKey "r").2 = .errorMsg .missingUpload) ∧
     (∀ d f m, (runGenerate parseNone reqNoKey "r").2 ≠ .success d f m)) :=
  ⟨Or.inl rfl,
   c9_missing_inputs parseNone parseArrEmpty reqNoKey "r" "other" (Or.inl rfl)⟩

/-! ## Claim C10 — wrongly-typed present part values abort generation -/

/-- **C10** (confirmed).  If a fixed part key is present but maps to a
non-object (string, number, list, …), the whole generation fails with a
Python error surfaced to the user, and no document is produced: the
silent empty-cell degradation covers only absent keys. -/
theorem c10_bad_part_value (parse : String → Option Json) (req : Request)
    (resp : String) (kvs : List (String × Json)) (k lbl : String) (v : Json)
    (hk : req.api_key ≠ "") (hu : req.uploaded_file ≠ none)
    (hp : parse (cleanResponse resp) = some (.obj kvs))
    (hmem : (k, lbl) ∈ row_labels)
    (hv : jlookup kvs k = some v)
    (hobj : ∀ sub, v ≠ .obj sub) :
    (∃ e, (runGenerate parse req resp).2 = .errorMsg (.caught (.pyErr e))) ∧
    (∀ d f m, (runGenerate parse req resp).2 ≠ .success d f m) := by
  have hday : pyGetDay v "Monday" = .error .attrErr := by
    cases v <;> first | rfl | exact absurd rfl (hobj _)
  have hrow : buildRow (.obj kvs) k lbl = .error .attrErr := by
    rw [buildRow_obj, hv]
    dsimp only
    have hmm : days.mapM (fun day => pyGetDay v day >>= pyCellText) =
        .error .attrErr := by
      rw [show days = "Monday" :: ["Tuesday", "Wednesday", "Thursday", "Friday"]
        from rfl, List.mapM_cons, hday]
      rfl
    rw [hmm]
    rfl
  obtain ⟨e, he⟩ := @mapM_error_of_mem (String × String) (List String) PyErr
    row_labels (fun kl => buildRow (.obj kvs) kl.1 kl.2) (k, lbl) PyErr.attrErr
    hmem hrow
  have htab : buildTable (.obj kvs) = .error e := by
    unfold buildTable
    rw [he]
    rfl
  have hd : buildDoc req.subject req.grade_level req.quarter req.content_std
      req.perf_std (.obj kvs) = .error e := by
    unfold buildDoc
    rw [htab]
    rfl
  constructor
  · refine ⟨e, ?_⟩
    rw [runGenerate_valid hk hu, hp]
    dsimp only
    rw [hd]
  · intro d f m hcontra
    rw [runGenerate_valid hk hu, hp] at hcontra
    dsimp only at hcontra
    rw [hd] at hcontra
    exact absurd hcontra (by simp)

/-- A parse oracle returning `{"review": "bad"}`. -/
def parseBadReview : String → Option Json := fun _ => some (.obj [("review", .str "bad")])

/-- **C10** witness: the statement at the concrete response `{"review": "bad"}`. -/
theorem c10_witness :
    ("review", "Reviewing previous lesson") ∈ row_labels ∧
    ((∃ e, (runGenerate parseBadReview reqScience "r").2 =
        .errorMsg (.caught (.pyErr e))) ∧
     (∀ d f m, (runGenerate parseBadReview reqScience "r").2 ≠ .success d f m)) :=
  ⟨by decide,
   c10_bad_part_value parseBadReview reqScience "r" [("review", .str "bad")]
     "review" "Reviewing previous lesson" (.str "bad")
     (by decide) (by decide) rfl (by decide) rfl (fun _ h => Json.noConfusion h)⟩

/-! ## Claim C6 — model selection -/

/-- **C6** (amended).  The code's model choice is the hard-coded literal
`'gemini-1.5-flash'` (`src/app.py:66`): it never enumerates available
models, so it coincides with the claimed selector exactly in the
enumeration-failure case, where that selector returns the default. -/
theorem c6_model_hardcoded (preferred : List String) :
    modelName = "gemini-1.5-flash" ∧
    specSelectModel preferred "gemini-1.5-flash" none = modelName :=
  ⟨rfl, rfl⟩

/-- **C6** counterexample.  With available models `["models/gemini-pro"]`
the claimed selector (spec's preference order) returns `"gemini-pro"`,
and with no preferred identifier matching it returns the first available
model `"models/other"`; the code's choice is `"gemini-1.5-flash"` in
every invocation, so the claimed selection algorithm does not describe
the code. -/
theorem c6_counterexample :
    specSelectModel ["gemini-1.5-flash", "gemini-1.5-pro", "gemini-pro"]
      "gemini-1.5-flash" (some ["models/gemini-pro"]) = "gemini-pro" ∧
    specSelectModel ["gemini-1.5-flash"] "gemini-1.5-flash"
      (some ["models/other"]) = "models/other" ∧
    modelName ≠ "gemini-pro" ∧ modelName ≠ "models/other" :=
  ⟨by decide, by decide, by decide, by decide⟩

/-! ## Claim C7 — document structure -/

/-- **C7** (amended).  Every successful generation yields a document with
the title heading combining subject and grade level, a week-label line, a
content-standard line and a performance-standard line, followed by the
11-row (header + 10) table; the learning competency is not rendered as a
line of its own. -/
theorem c7_document_content (parse : String → Option Json) (req : Request)
    (resp : String) (kvs : List (String × Json))
    (hk : req.api_key ≠ "") (hu : req.uploaded_file ≠ none)
    (hp : parse (cleanResponse resp) = some (.obj kvs))
    (hw : wellShaped kvs = true) :
    (runGenerate parse req resp).2 =
      .success
        { heading := "Daily Lesson Log - " ++ req.subject ++ " " ++ req.grade_level
          paragraphs := ["Week: " ++ req.quarter,
                         "Content Standard: " ++ req.content_std,
                         "Performance Standard: " ++ req.perf_std]
          table := headerRow ::
            row_labels.map (fun kl => kl.2 :: days.map (getCell kvs kl.1)) }
        "Lesson_Plan.docx" docxMime ∧
    (headerRow :: row_labels.map (fun kl => kl.2 :: days.map (getCell kvs kl.1))).length = 11 := by
  constructor
  · rw [runGenerate_valid hk hu, hp]
    dsimp only
    have hb : buildDoc req.subject req.grade_level req.quarter req.content_std
        req.perf_std (.obj kvs) =
        .ok { heading := "Daily Lesson Log - " ++ req.subject ++ " " ++ req.grade_level
              paragraphs := ["Week: " ++ req.quarter,
                             "Content Standard: " ++ req.content_std,
                             "Performance Standard: " ++ req.perf_std]
              table := headerRow ::
                row_labels.map (fun kl => kl.2 :: days.map (getCell kvs kl.1)) } := by
      unfold buildDoc
      rw [buildTable_ok hw]
      rfl
    rw [hb]
  · simp [row_labels]

/-- **C7** counterexample.  The document contains no line for the
learning competency: with competency text `"COMP-TEXT"` the generated
document's paragraphs are exactly the week line, the content-standard
line and the performance-standard line, and `"COMP-TEXT"` occurs in none
of them (nor in the heading). -/
theorem c7_counterexample :
    (outcomeDoc (runGenerate parseArrEmpty
        { reqScience with competency := "COMP-TEXT" } "r").2).map
      (fun d => d.paragraphs) =
      some ["Week: Quarter 1 - Week 1", "Content Standard: CS",
            "Performance Standard: PS"] ∧
    (outcomeDoc (runGenerate parseArrEmpty
        { reqScience with competency := "COMP-TEXT" } "r").2).map
      (fun d => d.paragraphs.any (fun p => substrOfS "COMP-TEXT" p) ||
        substrOfS "COMP-TEXT" d.heading) = some false :=
  ⟨rfl, by decide⟩

/-- **C7** witness: the amended statement at a concrete request and
response. -/
theorem c7_witness :
    wellShaped reviewOnlyKvs = true ∧
    ((runGenerate (fun _ => some (.obj reviewOnlyKvs)) reqScience "r").2 =
      .success
        { heading := "Daily Lesson Log - " ++ reqScience.subject ++ " " ++
            reqScience.grade_level
          paragraphs := ["Week: " ++ reqScience.quarter,
                         "Content Standard: " ++ reqScience.content_std,
                         "Performance Standard: " ++ reqScience.perf_std]
          table := headerRow ::
            row_labels.map (fun kl => kl.2 :: days.map (getCell reviewOnlyKvs kl.1)) }
        "Lesson_Plan.docx" docxMime ∧
     (headerRow ::
        row_labels.map (fun kl => kl.2 :: days.map (getCell reviewOnlyKvs kl.1))).length = 11) :=
  ⟨by decide,
   c7_document_content _ reqScience "r" reviewOnlyKvs (by decide) (by decide) rfl (by decide)⟩

/-! ## Claim C8 — download file name and MIME type -/

/-- **C8** (amended).  Every successful generation is offered under the
constant file name `"Lesson_Plan.docx"` — stable and deterministic but
independent of the subject and grade fields — with the standard
word-processing-document MIME type. -/
theorem c8_constant_filename (parse : String → Option Json) (req : Request)
    (resp : String) (d : GeneratedDoc) (f m : String)
    (h : (runGenerate parse req resp).2 = .success d f m) :
    f = "Lesson_Plan.docx" ∧
    m = "application/vnd.openxmlformats-officedocument.wordprocessingml.document" := by
  by_cases hk : req.api_key = ""
  · rw [runGenerate, if_pos hk] at h
    exact absurd h (by simp)
  · by_cases hu : req.uploaded_file = none
    · rw [runGenerate, if_neg hk, if_pos hu] at h
      exact absurd h (by simp)
    · rw [runGenerate_valid hk hu] at h
      dsimp only at h
      cases hp : parse (cleanResponse resp) with
      | none =>
        rw [hp] at h
        exact absurd h (by simp)
      | some data =>
        rw [hp] at h
        dsimp only at h
        cases hb : buildDoc req.subject req.grade_level req.quarter
            req.content_std req.perf_std data with
        | error e =>
          rw [hb] at h
          exact absurd h (by simp)
        | ok doc =>
          rw [hb] at h
          dsimp only at h
          injection h with h1 h2 h3
          exact ⟨h2.symm, h3.symm⟩

/-- A submission differing from `reqScience` only in subject and grade. -/
def reqMath : Request := { reqScience with subject := "Math", grade_level := "Grade 1" }

/-- **C8** counterexample.  Two submissions with different subject and
grade both download as `"Lesson_Plan.docx"`, and that name contains
neither the subject nor the grade — so the name is not derived from
subject and grade (not of the `DLL_<subject>_<grade>.docx` form). -/
theorem c8_counterexample :
    outcomeFile (runGenerate parseArrEmpty reqScience "r").2 =
      some "Lesson_Plan.docx" ∧
    outcomeFile (runGenerate parseArrEmpty reqMath "r").2 =
      some "Lesson_Plan.docx" ∧
    substrOfS reqScience.subject "Lesson_Plan.docx" = false ∧
    substrOfS reqScience.grade_level "Lesson_Plan.docx" = false :=
  ⟨rfl, rfl, by decide, by decide⟩

/-- **C8** witness: the amended statement at a concrete successful
generation. -/
theorem c8_witness :
    (runGenerate parseArrEmpty reqScience "r").2 =
      .success docScienceEmpty "Lesson_Plan.docx" docxMime ∧
    ("Lesson_Plan.docx" = "Lesson_Plan.docx" ∧
     docxMime = "application/vnd.openxmlformats-officedocument.wordprocessingml.document") :=
  ⟨rfl, c8_constant_filename parseArrEmpty reqScience "r" docScienceEmpty
    "Lesson_Plan.docx" docxMime rfl⟩
